import Mathlib

/-!
Verification of the qobuz_dl batch downloader (`qobuz_dl/downloader.py`)
against its natural-language specification.

The embedding below models, faithfully to the source:

* `_download_and_tag` (lines 300-372): the per-item transfer state machine —
  missing-"url" early return, the `os.path.isfile(final_file)` short-circuit,
  the bounded retry loop streaming chunks into the hidden temp file
  `.NN.tmp`, the per-class exception handling, the swallowed tagging step and
  the final `os.rename` publish.  The file system visible to one item is the
  pair of its temp-file content and its final-path content, plus the per-item
  progress counter; the run is recorded as a list of (event, state-after)
  steps so that invariants can be stated over every intermediate point.
  The trailing cover-art block (lines 363-372) touches only the sibling
  `.jpg` path and never the final audio path, so it is outside this model.
* `_process_real_track` (lines 151-172) and the per-track body of
  `_process_album_batch` (lines 135-145): the sample/preview skip branch.
* `_process_single_track` / `_run_multithreaded_download` (lines 76-94,
  232-271): the task-boundary error capture and the batch report.
* the discography filter inside `download_batch` (lines 197-229).
* `_get_format` (lines 388-396): quality negotiation.
* the final-path construction (lines 309-313): sanitize, join, truncate.

Machine integers do not overflow in any modelled computation, so byte
counts and list lengths are plain `Nat`; Python strings are `String` or
`List Char`; fallible dictionary lookups are `Option`/`Except`.
-/

namespace QD

/-! ### File-system state of one item's transfer -/

/-- The part of the file system one `_download_and_tag` call touches:
the content of its hidden temp file (`none` = file absent), the content at the
final sanitized path, and the per-item progress counter (the `rich` task's
completed byte count). -/
structure FS where
  temp : Option (List Nat)
  final : Option (List Nat)
  prog : Nat
deriving DecidableEq, Repr

/-- Observable events of `_download_and_tag`, in source order. -/
inductive Ev where
  /-- `requests.get(url, stream=True, timeout=30)` — the one network call. -/
  | fetch
  /-- `open(filename, "wb")` on the temp file (truncates it). -/
  | openTemp
  /-- one `file.write(chunk)` together with `progress.advance`. -/
  | writeChunk (c : List Nat)
  /-- `time.sleep(3)` in the transient-error branch. -/
  | sleepBackoff (n : Nat)
  /-- `os.remove(filename)` in the transient-error branch. -/
  | removeTemp
  /-- `progress.update(task_id, completed=0)` in the transient-error branch. -/
  | resetProg
  /-- `metadata.tag_mp3 / tag_flac` on the temp file (failures swallowed). -/
  | tagAttempt
  /-- `os.rename(filename, final_file)` — the publish. -/
  | publishRename
deriving DecidableEq, Repr

/-- How one iteration of the attempt loop behaves, as decided by the network:
the attempt either streams the full body (a list of chunks), fails with one of
the three retried connection-level exceptions (`ChunkedEncodingError`,
`ConnectionError`, `ReadTimeout`), or fails with any other exception.  For the
failing cases `written` records the chunks received before the failure,
`none` meaning the failure happened before `open(filename, "wb")` ran. -/
inductive AttemptOutcome where
  | success (chunks : List (List Nat))
  | connError (written : Option (List (List Nat))) (msg : String)
  | otherError (written : Option (List (List Nat))) (msg : String)

/-- Whether an outcome is one of the three retried connection-level errors. -/
def isConn : AttemptOutcome → Bool
  | .connError _ _ => true
  | _ => false

/-- `open(filename, "wb")` plus `progress.update(task_id, completed=0, total=...)`:
the temp file now exists and is empty, the per-item progress counter is 0. -/
def openTempFile (fs : FS) : FS :=
  { fs with temp := some [], prog := 0 }

/-- The body of `for chunk in response.iter_content(...): file.write(chunk);
progress.advance(task_id, len(chunk))`, one step per chunk, recording the
state after each write. -/
def writeChunks (fs : FS) : List (List Nat) → List (Ev × FS) × FS
  | [] => ([], fs)
  | c :: rest =>
    let fs' : FS := { fs with temp := some (fs.temp.getD [] ++ c),
                              prog := fs.prog + c.length }
    let w := writeChunks fs' rest
    ((Ev.writeChunk c, fs') :: w.1, w.2)

/-- The part of a failing attempt that ran before the exception: nothing if the
failure preceded `open`, otherwise the open and the received chunks. -/
def partialWrite (written : Option (List (List Nat))) (fs : FS) :
    List (Ev × FS) × FS :=
  match written with
  | none => ([], fs)
  | some cs =>
    let fs1 := openTempFile fs
    let w := writeChunks fs1 cs
    ((Ev.openTemp, fs1) :: w.1, w.2)

/-- `if os.path.exists(filename): os.remove(filename)` (lines 344-346). -/
def discardTemp (fs : FS) : List (Ev × FS) × FS :=
  if fs.temp.isSome then
    let fs' : FS := { fs with temp := none }
    ([(Ev.removeTemp, fs')], fs')
  else ([], fs)

/-- Result of running one iteration of the attempt loop: its recorded steps
and the file system it leaves. -/
structure AttemptRes where
  steps : List (Ev × FS)
  fs : FS
deriving DecidableEq

/-- One iteration of the attempt loop (lines 323-349): fetch, stream into the
temp file; on a connection-level error sleep 3, remove the temp file if it
exists, reset the per-item progress counter; on any other error stop where
the exception hit. -/
def attemptOnce (o : AttemptOutcome) (fs : FS) : AttemptRes :=
  match o with
  | .success chunks =>
    let fs1 := openTempFile fs
    let w := writeChunks fs1 chunks
    ⟨(Ev.fetch, fs) :: (Ev.openTemp, fs1) :: w.1, w.2⟩
  | .connError written _ =>
    let pw := partialWrite written fs
    let d := discardTemp pw.2
    let fsz : FS := { d.2 with prog := 0 }
    ⟨(Ev.fetch, fs) :: pw.1 ++ (Ev.sleepBackoff 3, pw.2) :: d.1
        ++ [(Ev.resetProg, fsz)],
     fsz⟩
  | .otherError written _ =>
    let pw := partialWrite written fs
    ⟨(Ev.fetch, fs) :: pw.1, pw.2⟩

/-- How the whole `for attempt in range(max_retries)` loop ended:
`success = True; break`, all retries spent, or a re-raised exception
(`raise e`). -/
inductive LoopResult where
  | success
  | exhausted (lastErr : String)
  | fatal (msg : String)
deriving DecidableEq

/-- Result of the attempt loop. -/
structure LoopRes where
  steps : List (Ev × FS)
  fs : FS
  result : LoopResult

/-- The attempt loop: `fuel` iterations remain, `i` is the index of the next
attempt, `le` the `last_error` seen so far.  A success outcome is the
`break`; a connection-level error continues the loop; any other exception is
re-raised at once.  Running out of fuel is the
`if not success: raise Exception(f"... {last_error}")` path. -/
def attemptLoop (out : Nat → AttemptOutcome) (i fuel : Nat) (le : String)
    (fs : FS) : LoopRes :=
  match fuel with
  | 0 => ⟨[], fs, .exhausted le⟩
  | f + 1 =>
    let a := attemptOnce (out i) fs
    match out i with
    | .success _ => ⟨a.steps, a.fs, .success⟩
    | .otherError _ m => ⟨a.steps, a.fs, .fatal m⟩
    | .connError _ m =>
      let rest := attemptLoop out (i + 1) f m a.fs
      ⟨a.steps ++ rest.steps, rest.fs, rest.result⟩

/-- `max_retries = 3` (line 319). -/
def max_retries : Nat := 3

/-- How `_download_and_tag` terminated, seen from its caller. -/
inductive DLResult where
  /-- `except: return` — the descriptor has no "url" key (lines 302-303). -/
  | noUrl
  /-- `if os.path.isfile(final_file): return` (lines 315-317). -/
  | alreadyDone
  /-- `raise Exception(f"... {last_error}")` after the loop (lines 351-352). -/
  | exhausted (lastErr : String)
  /-- a non-transient exception re-raised out of the loop (lines 348-349). -/
  | raised (msg : String)
  /-- normal completion through tag and rename. -/
  | published
deriving DecidableEq, Repr

/-- Result of one `_download_and_tag` call: its recorded steps, the file
system it leaves behind, and how it returned. -/
structure DLRun where
  steps : List (Ev × FS)
  fs : FS
  result : DLResult

/-- `_download_and_tag` (lines 300-361).  `url` is the "url" entry of the
stream descriptor (`none` = key absent), `out` gives each attempt's network
behaviour, `fs` the file system at entry.  The tag step is modelled from the
spec: the metadata tagger (`qobuz_dl/metadata.py`, an external collaborator
here) embeds tags into the already fully-received temp file and its failures
are swallowed (`except: pass`), so it changes neither the temp-file presence
nor the final path; the subsequent guarded `os.rename` is the single publish.
-/
def download_and_tag (url : Option String) (out : Nat → AttemptOutcome)
    (fs : FS) : DLRun :=
  match url with
  | none => ⟨[], fs, .noUrl⟩
  | some _ =>
    if fs.final.isSome then ⟨[], fs, .alreadyDone⟩
    else
      let L := attemptLoop out 0 max_retries "" fs
      match L.result with
      | .fatal m => ⟨L.steps, L.fs, .raised m⟩
      | .exhausted m => ⟨L.steps, L.fs, .exhausted m⟩
      | .success =>
        let st1 := L.steps ++ [(Ev.tagAttempt, L.fs)]
        if L.fs.temp.isSome then
          let fs2 : FS := { L.fs with temp := none,
                                      final := some (L.fs.temp.getD []) }
          ⟨st1 ++ [(Ev.publishRename, fs2)], fs2, .published⟩
        else ⟨st1, L.fs, .published⟩

/-- Number of steps whose event satisfies `p`. -/
def countEv (p : Ev → Bool) (st : List (Ev × FS)) : Nat :=
  st.countP (fun s => p s.1)

/-- Recognizers for the events counted in the claims. -/
def isFetchEv : Ev → Bool
  | .fetch => true
  | _ => false

/-- The fixed 3-unit backoff event. -/
def isSleep3Ev : Ev → Bool
  | .sleepBackoff n => n == 3
  | _ => false

/-- The per-item progress reset event. -/
def isResetEv : Ev → Bool
  | .resetProg => true
  | _ => false

/-- The publish rename event. -/
def isRenameEv : Ev → Bool
  | .publishRename => true
  | _ => false

/-! ### The sample-skip branch of track processing -/

/-- The stream descriptor returned by `client.get_track_url`, as the skip
check reads it: whether the dict has a "sample" key at all (`"sample" not in
parse`), the value at "sampling_rate" (`none` = key absent, so that
`parse["sampling_rate"]` raises `KeyError`; value `0` is falsy), and the
optional "url". -/
structure ParseDict where
  hasSampleKey : Bool
  sampling_rate : Option Int
  url : Option String

/-- How `_process_real_track` returned. -/
inductive TrackRes where
  /-- an exception propagated to the task boundary. -/
  | raised (msg : String)
  /-- the sample/preview branch: only the skip message is printed. -/
  | skippedSample
  /-- `_download_and_tag` ran and returned `r`. -/
  | finished (r : DLResult)
deriving DecidableEq

/-- Result of one `_process_real_track` call. -/
structure TrackRun where
  steps : List (Ev × FS)
  fs : FS
  result : TrackRes

/-- The core of `_process_real_track` (lines 159-172): fetch the descriptor
(a failure is re-wrapped and raised), then
`if "sample" not in parse and parse["sampling_rate"]: _download_and_tag(...)
else: skip`. -/
def process_real_track (parse : Except String ParseDict)
    (out : Nat → AttemptOutcome) (fs : FS) : TrackRun :=
  match parse with
  | .error e => ⟨[], fs, .raised e⟩
  | .ok p =>
    if p.hasSampleKey then ⟨[], fs, .skippedSample⟩
    else
      match p.sampling_rate with
      | none => ⟨[], fs, .raised "KeyError: sampling_rate"⟩
      | some v =>
        if v ≠ 0 then
          let d := download_and_tag p.url out fs
          ⟨d.steps, d.fs, .finished d.result⟩
        else ⟨[], fs, .skippedSample⟩

/-- Which `_download_and_tag` outcomes surface as a Python exception at the
caller (only re-raised errors and retry exhaustion; the `return` paths are
ordinary completion). -/
def resultError : DLResult → Option String
  | .exhausted m => some m
  | .raised m => some m
  | _ => none

/-- How a `_download_and_tag` outcome enters `_process_single_track`'s task
boundary: an error is re-raised to the task, a `return` path is ordinary
completion. -/
def taskWork (r : DLResult) : Except String Unit :=
  match resultError r with
  | some m => .error m
  | none => .ok ()

/-- One iteration of the per-track loop of `_process_album_batch`
(lines 135-145): the same sample check, with any exception appended to
`failed_list` (prefixed by the album/track label) instead of propagating. -/
def album_track_step (label : String) (parse : Except String ParseDict)
    (out : Nat → AttemptOutcome) (fs : FS) (failed : List String) :
    List String × List (Ev × FS) × FS :=
  match parse with
  | .error e => (failed ++ [label ++ ": " ++ e], [], fs)
  | .ok p =>
    if p.hasSampleKey then (failed, [], fs)
    else
      match p.sampling_rate with
      | none => (failed ++ [label ++ ": KeyError: sampling_rate"], [], fs)
      | some v =>
        if v ≠ 0 then
          let d := download_and_tag p.url out fs
          match resultError d.result with
          | some m => (failed ++ [label ++ ": " ++ m], d.steps, d.fs)
          | none => (failed, d.steps, d.fs)
        else (failed, [], fs)

/-! ### Batch scheduling: task boundary and report -/

/-- The state shared by the pool workers: the `failed_list` accumulator and
the overall progress task's completed count. -/
structure BatchState where
  failed : List String
  overall : Nat
deriving DecidableEq, Repr

/-- `_process_single_track`'s task boundary (lines 81-94): the item's work
either returns or raises; a raised error is appended to `failed_list` as
"label - error"; the `finally` block advances the overall counter by one in
every case. -/
def process_single_track (label : String) (work : Except String Unit)
    (st : BatchState) : BatchState :=
  let st1 :=
    match work with
    | .ok _ => st
    | .error e => { st with failed := st.failed ++ [label ++ " - " ++ e] }
  { st1 with overall := st1.overall + 1 }

/-- `_run_multithreaded_download`'s aggregation (lines 232-263): one task per
item, every task joined; `tasks` lists, in completion order, each task's label
and whether its body returned or raised. -/
def run_multithreaded (tasks : List (String × Except String Unit)) :
    BatchState :=
  tasks.foldl (fun st t => process_single_track t.1 t.2 st) ⟨[], 0⟩

/-- `if failed_list: ... else: success` (lines 265-271): the batch is
reported successful exactly when the failure report is empty. -/
def batch_reports_success (tasks : List (String × Except String Unit)) :
    Bool :=
  (run_multithreaded tasks).failed.isEmpty

/-- The failure entry an error produces (line 89-90). -/
def failure_entry (t : String × Except String Unit) : Option String :=
  match t.2 with
  | .ok _ => none
  | .error e => some (t.1 ++ " - " ++ e)

/-! ### The discography filter of `download_batch` -/

/-- Python `str.lower`, on explicit character lists. -/
def lowerStr (s : List Char) : List Char := s.map Char.toLower

/-- Python's `needle in hay` on strings: contiguous-substring test. -/
def strContains (hay needle : List Char) : Bool := decide (needle <:+: hay)

/-- An album-like entry of an artist/label listing, as the filter reads it:
`item['artist']['name']`.  (The filter's contract receives album entries,
which all carry `tracks_count` and an artist name.) -/
structure AlbumEntry where
  artistName : List Char
deriving DecidableEq

/-- First occurrences in order — the iteration order of `Counter(artists)`
(insertion-ordered in Python ≥ 3.7). -/
def firstOccurrences (l : List (List Char)) : List (List Char) :=
  l.foldl (fun acc a => if a ∈ acc then acc else acc ++ [a]) []

/-- `Counter(artists).most_common(1)`: the artist of maximal count; Python's
stable sort keeps the first-inserted one among ties. -/
def mostCommonArtist (l : List (List Char)) : Option (List Char) :=
  (firstOccurrences l).foldl
    (fun best a =>
      match best with
      | none => some a
      | some b => if l.count a > l.count b then some a else some b)
    none

/-- The keep condition of the filter (lines 219-221): the modal artist's
lowered name occurs in the entry's lowered artist name, or conversely, or the
entry's lowered artist name contains "various". -/
def keepEntry (mainArtist : List Char) (e : AlbumEntry) : Bool :=
  strContains (lowerStr e.artistName) (lowerStr mainArtist)
    || strContains (lowerStr mainArtist) (lowerStr e.artistName)
    || strContains (lowerStr e.artistName) "various".toList

/-- The smart-filter core of `download_batch` (lines 197-229), on album-like
entries: find the modal artist; when its count exceeds 40% of the entries
(`count / len(track_list) > 0.4`, read as the exact rational comparison
`5 * count > 2 * len`), keep exactly the entries satisfying `keepEntry`;
otherwise, and for an empty input, return the list unchanged. -/
def download_batch_filter (l : List AlbumEntry) : List AlbumEntry :=
  match mostCommonArtist (l.map (·.artistName)) with
  | none => l
  | some mainArtist =>
    if 5 * (l.map (·.artistName)).count mainArtist > 2 * l.length then
      l.filter (keepEntry mainArtist)
    else l

/-! ### Quality negotiation: `_get_format` -/

/-- The fields `_get_format` reads off the resolved descriptor: `.get` /
`[...]` on "bit_depth" and "sampling_rate" (`none` = key absent). -/
structure TrackUrlInfo where
  bit_depth : Option Int
  sampling_rate : Option Int
deriving DecidableEq, Repr

/-- `_get_format` (lines 388-396) for the `_get_format(meta)` call shape used
in this file: `quality` is `int(self.quality)`; `trackLookup` models
`item_dict["tracks"]["items"][0]["id"]` (this lookup sits outside the
`try`, so its failure propagates); `resolve` models
`self.client.get_track_url(track_id, fmt_id=self.quality)`, whose failure —
like a missing key read inside the `try` — is swallowed into the "Unknown"
tuple carrying the `quality_met` value current at the raise. -/
def get_format (quality : Int) (trackLookup : Except String String)
    (resolve : String → Except String TrackUrlInfo) :
    Except String (String × Bool × Option Int × Option Int) :=
  if quality = 5 then .ok ("MP3", true, none, none)
  else
    match trackLookup with
    | .error e => .error e
    | .ok tid =>
      match resolve tid with
      | .error _ => .ok ("Unknown", true, none, none)
      | .ok ntd =>
        let qualityMet := !(decide (6 < quality)
          && decide (ntd.bit_depth = some 16))
        match ntd.bit_depth, ntd.sampling_rate with
        | some bd, some sr => .ok ("FLAC", qualityMet, some bd, some sr)
        | _, _ => .ok ("Unknown", qualityMet, none, none)

/-! ### Final-path construction -/

/-- Characters `pathvalidate` strips from a filename component.  Modelled
from the spec: the sanitizer is the external `pathvalidate.sanitize_filename`,
specified as "invalid character stripping" for filesystem legality. -/
def invalidFilenameChars : List Char :=
  ['/', '\\', ':', '*', '?', '"', '<', '>', '|']

/-- Modelled from the spec: `sanitize_filename` strips invalid characters
from one path component. -/
def sanitize_filename (s : List Char) : List Char :=
  s.filter (fun c => decide (c ∉ invalidFilenameChars))

/-- `os.path.join` for a non-empty relative component. -/
def pathJoin (a b : List Char) : List Char := a ++ ['/'] ++ b

/-- `final_file = os.path.join(root_dir, formatted_name)[:240] + extension`
(lines 312-313), with `formatted_name = sanitize_filename(...)`. -/
def finalFilePath (rootDir fmtName ext : List Char) : List Char :=
  (pathJoin rootDir (sanitize_filename fmtName)).take 240 ++ ext

/-! ### Concrete inputs used to evaluate the model -/

/-- A network that streams the full body on every attempt. -/
def outSuccess : Nat → AttemptOutcome := fun _ => .success [[1, 2], [3]]

/-- A network that times out before `open` on every attempt. -/
def outConn : Nat → AttemptOutcome := fun _ => .connError none "timeout"

/-- An empty destination: no temp file, nothing at the final path. -/
def fsEmpty : FS := ⟨none, none, 0⟩

/-- A destination whose final path already holds a completed file. -/
def fsDone : FS := ⟨none, some [9], 0⟩

/-- A resolved descriptor flagged as a sample/preview. -/
def sampleParse : ParseDict := ⟨true, some 44100, some "u"⟩

/-- A resolution call that always fails. -/
def resolveFail : String → Except String TrackUrlInfo := fun _ => .error "boom"

/-! ### Helper lemmas: the streaming primitives -/

theorem countEv_eq_zero {p : Ev → Bool} {st : List (Ev × FS)}
    (h : ∀ s ∈ st, p s.1 = false) : countEv p st = 0 := by
  unfold countEv
  rw [List.countP_eq_zero]
  intro a ha
  simp [h a ha]

theorem countEv_append (p : Ev → Bool) (a b : List (Ev × FS)) :
    countEv p (a ++ b) = countEv p a + countEv p b :=
  List.countP_append _ _ _

theorem countEv_nil (p : Ev → Bool) : countEv p [] = 0 := rfl

theorem countEv_cons (p : Ev → Bool) (s : Ev × FS) (st : List (Ev × FS)) :
    countEv p (s :: st) = countEv p st + (if p s.1 = true then 1 else 0) :=
  List.countP_cons _ _ _

theorem writeChunks_snd_final (cs : List (List Nat)) (fs : FS) :
    ((writeChunks fs cs).2).final = fs.final := by
  induction cs generalizing fs with
  | nil => rfl
  | cons c rest ih => exact ih _

theorem writeChunks_mem (cs : List (List Nat)) (fs : FS) :
    ∀ s ∈ (writeChunks fs cs).1,
      (∃ c, s.1 = Ev.writeChunk c) ∧ s.2.final = fs.final := by
  induction cs generalizing fs with
  | nil => intro s hs; simp [writeChunks] at hs
  | cons c rest ih =>
    intro s hs
    simp only [writeChunks, List.mem_cons] at hs
    rcases hs with rfl | hs
    · exact ⟨⟨c, rfl⟩, rfl⟩
    · exact ih { fs with temp := some (fs.temp.getD [] ++ c),
                         prog := fs.prog + c.length } s hs

theorem writeChunks_temp (cs : List (List Nat)) (fs : FS) (t : List Nat)
    (h : fs.temp = some t) :
    ((writeChunks fs cs).2).temp = some (t ++ cs.flatten) := by
  induction cs generalizing fs t with
  | nil => simpa [writeChunks] using h
  | cons c rest ih =>
    have step : ((writeChunks fs (c :: rest)).2).temp
        = ((writeChunks { fs with temp := some (fs.temp.getD [] ++ c),
                                  prog := fs.prog + c.length } rest).2).temp := rfl
    rw [step, ih _ (t ++ c) (by simp [h]), List.flatten_cons,
      List.append_assoc]

theorem partialWrite_mem (w : Option (List (List Nat))) (fs : FS) :
    ∀ s ∈ (partialWrite w fs).1,
      (s.1 = Ev.openTemp ∨ ∃ c, s.1 = Ev.writeChunk c)
        ∧ s.2.final = fs.final := by
  cases w with
  | none => intro s hs; simp [partialWrite] at hs
  | some cs =>
    intro s hs
    simp only [partialWrite, List.mem_cons] at hs
    rcases hs with rfl | hs
    · exact ⟨Or.inl rfl, rfl⟩
    · exact (writeChunks_mem cs _ s hs).imp Or.inr id

theorem partialWrite_final (w : Option (List (List Nat))) (fs : FS) :
    ((partialWrite w fs).2).final = fs.final := by
  cases w with
  | none => rfl
  | some cs => exact writeChunks_snd_final cs _

theorem discardTemp_snd (fs : FS) :
    (discardTemp fs).2 = { fs with temp := none } := by
  unfold discardTemp
  split
  · rfl
  · rename_i h
    cases hfs : fs.temp with
    | none => cases fs; simp_all
    | some t => rw [hfs] at h; simp at h

theorem discardTemp_mem (fs : FS) :
    ∀ s ∈ (discardTemp fs).1,
      s.1 = Ev.removeTemp ∧ s.2.final = fs.final ∧ s.2.temp = none := by
  unfold discardTemp
  split
  · intro s hs
    simp only [List.mem_singleton] at hs
    subst hs
    exact ⟨rfl, rfl, rfl⟩
  · intro s hs; simp at hs

theorem writeChunks_count_zero (p : Ev → Bool)
    (hp : ∀ c, p (Ev.writeChunk c) = false) (cs : List (List Nat)) (fs : FS) :
    countEv p (writeChunks fs cs).1 = 0 := by
  refine countEv_eq_zero fun s hs => ?_
  obtain ⟨⟨c, hc⟩, -⟩ := writeChunks_mem cs fs s hs
  rw [hc]
  exact hp c

theorem partialWrite_count_zero (p : Ev → Bool) (hpo : p Ev.openTemp = false)
    (hp : ∀ c, p (Ev.writeChunk c) = false) (w : Option (List (List Nat)))
    (fs : FS) : countEv p (partialWrite w fs).1 = 0 := by
  refine countEv_eq_zero fun s hs => ?_
  obtain ⟨hev, -⟩ := partialWrite_mem w fs s hs
  rcases hev with h | ⟨c, h⟩
  · rw [h]; exact hpo
  · rw [h]; exact hp c

theorem discardTemp_count_zero (p : Ev → Bool)
    (hpr : p Ev.removeTemp = false) (fs : FS) :
    countEv p (discardTemp fs).1 = 0 := by
  refine countEv_eq_zero fun s hs => ?_
  obtain ⟨hev, -⟩ := discardTemp_mem fs s hs
  rw [hev]
  exact hpr

theorem attemptOnce_fs_final (o : AttemptOutcome) (fs : FS) :
    (attemptOnce o fs).fs.final = fs.final := by
  cases o with
  | success cs => exact writeChunks_snd_final cs _
  | connError w m =>
    show ({ (discardTemp (partialWrite w fs).2).2 with prog := 0 } : FS).final
        = fs.final
    rw [discardTemp_snd]
    exact partialWrite_final w fs
  | otherError w m => exact partialWrite_final w fs

theorem attemptOnce_count_fetch (o : AttemptOutcome) (fs : FS) :
    countEv isFetchEv (attemptOnce o fs).steps = 1 := by
  cases o with
  | success cs =>
    simp only [attemptOnce, countEv_cons]
    rw [writeChunks_count_zero isFetchEv (fun _ => rfl) cs (openTempFile fs)]
    rfl
  | connError w m =>
    simp only [attemptOnce, countEv_cons, countEv_append, countEv_nil]
    rw [partialWrite_count_zero isFetchEv rfl (fun _ => rfl) w fs,
      discardTemp_count_zero isFetchEv rfl ((partialWrite w fs).2)]
    rfl
  | otherError w m =>
    simp only [attemptOnce, countEv_cons]
    rw [partialWrite_count_zero isFetchEv rfl (fun _ => rfl) w fs]
    rfl

theorem attemptOnce_conn_fs (w : Option (List (List Nat))) (m : String)
    (fs : FS) :
    (attemptOnce (.connError w m) fs).fs.temp = none
      ∧ (attemptOnce (.connError w m) fs).fs.prog = 0 := by
  constructor
  · show ({ (discardTemp (partialWrite w fs).2).2 with prog := 0 } : FS).temp
        = none
    rw [discardTemp_snd]
  · rfl

theorem attemptOnce_conn_counts (w : Option (List (List Nat))) (m : String)
    (fs : FS) :
    countEv isSleep3Ev (attemptOnce (.connError w m) fs).steps = 1
      ∧ countEv isResetEv (attemptOnce (.connError w m) fs).steps = 1 := by
  constructor
  · simp only [attemptOnce, countEv_cons, countEv_append, countEv_nil]
    rw [partialWrite_count_zero isSleep3Ev rfl (fun _ => rfl) w fs,
      discardTemp_count_zero isSleep3Ev rfl ((partialWrite w fs).2)]
    rfl
  · simp only [attemptOnce, countEv_cons, countEv_append, countEv_nil]
    rw [partialWrite_count_zero isResetEv rfl (fun _ => rfl) w fs,
      discardTemp_count_zero isResetEv rfl ((partialWrite w fs).2)]
    rfl

theorem attemptOnce_success_temp (cs : List (List Nat)) (fs : FS) :
    (attemptOnce (.success cs) fs).fs.temp = some cs.flatten := by
  simpa using writeChunks_temp cs (openTempFile fs) [] rfl

theorem attemptOnce_mem (o : AttemptOutcome) (fs : FS) :
    ∀ s ∈ (attemptOnce o fs).steps,
      s.2.final = fs.final ∧ s.1 ≠ Ev.publishRename ∧ s.1 ≠ Ev.tagAttempt := by
  cases o with
  | success cs =>
    intro s hs
    simp only [attemptOnce, List.mem_cons] at hs
    rcases hs with rfl | rfl | hs
    · exact ⟨rfl, by simp, by simp⟩
    · exact ⟨rfl, by simp, by simp⟩
    · obtain ⟨⟨c, hc⟩, hf⟩ := writeChunks_mem cs _ s hs
      exact ⟨hf, by rw [hc]; simp, by rw [hc]; simp⟩
  | connError w m =>
    intro s hs
    simp only [attemptOnce, List.mem_cons, List.mem_append,
      List.mem_singleton] at hs
    rcases hs with ((rfl | hs) | rfl | hs) | rfl | hs
    · exact ⟨rfl, by simp, by simp⟩
    · obtain ⟨hev, hf⟩ := partialWrite_mem w fs s hs
      refine ⟨hf, ?_, ?_⟩ <;> rcases hev with h | ⟨c, h⟩ <;> rw [h] <;> simp
    · exact ⟨partialWrite_final w fs, by simp, by simp⟩
    · obtain ⟨hev, hf, -⟩ := discardTemp_mem _ s hs
      rw [hev]
      exact ⟨hf.trans (partialWrite_final w fs), by simp, by simp⟩
    · refine ⟨?_, by simp, by simp⟩
      show ((discardTemp (partialWrite w fs).2).2).final = fs.final
      rw [discardTemp_snd]
      exact partialWrite_final w fs
    · exact absurd hs (by simp)
  | otherError w m =>
    intro s hs
    simp only [attemptOnce, List.mem_cons] at hs
    rcases hs with rfl | hs
    · exact ⟨rfl, by simp, by simp⟩
    · obtain ⟨hev, hf⟩ := partialWrite_mem w fs s hs
      refine ⟨hf, ?_, ?_⟩ <;> rcases hev with h | ⟨c, h⟩ <;> rw [h] <;> simp

theorem attemptOnce_reset_mem (o : AttemptOutcome) (fs : FS) :
    ∀ s ∈ (attemptOnce o fs).steps,
      s.1 = Ev.resetProg → s.2.temp = none ∧ s.2.prog = 0 := by
  cases o with
  | success cs =>
    intro s hs hr
    simp only [attemptOnce, List.mem_cons] at hs
    rcases hs with rfl | rfl | hs
    · simp at hr
    · simp at hr
    · obtain ⟨⟨c, hc⟩, -⟩ := writeChunks_mem cs _ s hs
      rw [hc] at hr
      simp at hr
  | connError w m =>
    intro s hs hr
    simp only [attemptOnce, List.mem_cons, List.mem_append,
      List.mem_singleton] at hs
    rcases hs with ((rfl | hs) | rfl | hs) | rfl | hs
    · simp at hr
    · obtain ⟨hev, -⟩ := partialWrite_mem w fs s hs
      rcases hev with h | ⟨c, h⟩ <;> rw [h] at hr <;> simp at hr
    · simp at hr
    · obtain ⟨hev, -⟩ := discardTemp_mem _ s hs
      rw [hev] at hr
      simp at hr
    · constructor
      · show ((discardTemp (partialWrite w fs).2).2).temp = none
        rw [discardTemp_snd]
      · rfl
    · exact absurd hs (by simp)
  | otherError w m =>
    intro s hs hr
    simp only [attemptOnce, List.mem_cons] at hs
    rcases hs with rfl | hs
    · simp at hr
    · obtain ⟨hev, -⟩ := partialWrite_mem w fs s hs
      rcases hev with h | ⟨c, h⟩ <;> rw [h] at hr <;> simp at hr

/-! ### Helper lemmas: the attempt loop -/

theorem attemptLoop_fs_final (out : Nat → AttemptOutcome) (fuel : Nat) :
    ∀ (i : Nat) (le : String) (fs : FS),
      (attemptLoop out i fuel le fs).fs.final = fs.final := by
  induction fuel with
  | zero => intro i le fs; rfl
  | succ f ih =>
    intro i le fs
    cases h : out i with
    | success cs =>
      simp only [attemptLoop, h]
      exact attemptOnce_fs_final _ fs
    | otherError w m =>
      simp only [attemptLoop, h]
      exact attemptOnce_fs_final _ fs
    | connError w m =>
      simp only [attemptLoop, h]
      rw [ih, attemptOnce_fs_final]

theorem attemptLoop_mem (out : Nat → AttemptOutcome) (fuel : Nat) :
    ∀ (i : Nat) (le : String) (fs : FS),
      ∀ s ∈ (attemptLoop out i fuel le fs).steps,
        s.2.final = fs.final ∧ s.1 ≠ Ev.publishRename
          ∧ s.1 ≠ Ev.tagAttempt := by
  induction fuel with
  | zero => intro i le fs s hs; simp [attemptLoop] at hs
  | succ f ih =>
    intro i le fs s hs
    cases h : out i with
    | success cs =>
      simp only [attemptLoop, h] at hs
      exact attemptOnce_mem _ fs s hs
    | otherError w m =>
      simp only [attemptLoop, h] at hs
      exact attemptOnce_mem _ fs s hs
    | connError w m =>
      simp only [attemptLoop, h, List.mem_append] at hs
      rcases hs with hs | hs
      · exact attemptOnce_mem _ fs s hs
      · have := ih (i + 1) m ((attemptOnce (.connError w m) fs).fs) s hs
        rwa [attemptOnce_fs_final] at this

theorem attemptLoop_reset_mem (out : Nat → AttemptOutcome) (fuel : Nat) :
    ∀ (i : Nat) (le : String) (fs : FS),
      ∀ s ∈ (attemptLoop out i fuel le fs).steps,
        s.1 = Ev.resetProg → s.2.temp = none ∧ s.2.prog = 0 := by
  induction fuel with
  | zero => intro i le fs s hs; simp [attemptLoop] at hs
  | succ f ih =>
    intro i le fs s hs
    cases h : out i with
    | success cs =>
      simp only [attemptLoop, h] at hs
      exact attemptOnce_reset_mem _ fs s hs
    | otherError w m =>
      simp only [attemptLoop, h] at hs
      exact attemptOnce_reset_mem _ fs s hs
    | connError w m =>
      simp only [attemptLoop, h, List.mem_append] at hs
      rcases hs with hs | hs
      · exact attemptOnce_reset_mem _ fs s hs
      · exact ih (i + 1) m ((attemptOnce (.connError w m) fs).fs) s hs

theorem attemptLoop_allconn (out : Nat → AttemptOutcome) (fuel : Nat) :
    ∀ (i : Nat) (le : String) (fs : FS), 0 < fuel →
      (∀ j, j < fuel → isConn (out (i + j)) = true) →
      (∃ m, (attemptLoop out i fuel le fs).result = .exhausted m)
        ∧ countEv isFetchEv (attemptLoop out i fuel le fs).steps = fuel
        ∧ countEv isSleep3Ev (attemptLoop out i fuel le fs).steps = fuel
        ∧ countEv isResetEv (attemptLoop out i fuel le fs).steps = fuel
        ∧ (attemptLoop out i fuel le fs).fs.temp = none
        ∧ (attemptLoop out i fuel le fs).fs.prog = 0 := by
  induction fuel with
  | zero => intro i le fs hpos; omega
  | succ f ih =>
    intro i le fs hpos hconn
    have h0 : isConn (out i) = true := by simpa using hconn 0 (Nat.succ_pos f)
    cases h : out i with
    | success cs => rw [h] at h0; simp [isConn] at h0
    | otherError w m => rw [h] at h0; simp [isConn] at h0
    | connError w m =>
      rcases Nat.eq_zero_or_pos f with rfl | hf
      · simp only [attemptLoop, h]
        refine ⟨⟨m, rfl⟩, ?_, ?_, ?_, ?_, ?_⟩
        · rw [countEv_append, countEv_nil, attemptOnce_count_fetch]
        · rw [countEv_append, countEv_nil,
            (attemptOnce_conn_counts w m fs).1]
        · rw [countEv_append, countEv_nil,
            (attemptOnce_conn_counts w m fs).2]
        · exact (attemptOnce_conn_fs w m fs).1
        · exact (attemptOnce_conn_fs w m fs).2
      · have hshift : ∀ j, j < f → isConn (out (i + 1 + j)) = true := by
          intro j hj
          have := hconn (j + 1) (by omega)
          rwa [show i + (j + 1) = i + 1 + j by omega] at this
        obtain ⟨⟨m', hres⟩, hcf, hcs, hcr, ht, hp⟩ :=
          ih (i + 1) m ((attemptOnce (.connError w m) fs).fs) hf hshift
        simp only [attemptLoop, h]
        refine ⟨⟨m', hres⟩, ?_, ?_, ?_, ht, hp⟩
        · rw [countEv_append, attemptOnce_count_fetch, hcf]; omega
        · rw [countEv_append, (attemptOnce_conn_counts w m fs).1, hcs]; omega
        · rw [countEv_append, (attemptOnce_conn_counts w m fs).2, hcr]; omega

theorem attemptLoop_other (out : Nat → AttemptOutcome) (fuel : Nat) :
    ∀ (k i : Nat) (le : String) (fs : FS), k < fuel →
      (∀ j, j < k → isConn (out (i + j)) = true) →
      ∀ w m, out (i + k) = .otherError w m →
      (attemptLoop out i fuel le fs).result = .fatal m
        ∧ countEv isFetchEv (attemptLoop out i fuel le fs).steps = k + 1 := by
  induction fuel with
  | zero => intro k i le fs hk; omega
  | succ f ih =>
    intro k i le fs hk hconn w m hout
    cases k with
    | zero =>
      rw [Nat.add_zero] at hout
      constructor
      · simp only [attemptLoop, hout]
      · simp only [attemptLoop, hout]
        rw [attemptOnce_count_fetch]
    | succ k' =>
      have h0 : isConn (out i) = true := by
        simpa using hconn 0 (Nat.succ_pos k')
      cases h : out i with
      | success cs => rw [h] at h0; simp [isConn] at h0
      | otherError w2 m2 => rw [h] at h0; simp [isConn] at h0
      | connError w2 m2 =>
        have hshift : ∀ j, j < k' → isConn (out (i + 1 + j)) = true := by
          intro j hj
          have := hconn (j + 1) (by omega)
          rwa [show i + (j + 1) = i + 1 + j by omega] at this
        have hout' : out (i + 1 + k') = .otherError w m := by
          rwa [show i + 1 + k' = i + (k' + 1) by omega]
        obtain ⟨hres, hcount⟩ :=
          ih k' (i + 1) m2 ((attemptOnce (.connError w2 m2) fs).fs)
            (by omega) hshift w m hout'
        simp only [attemptLoop, h]
        refine ⟨hres, ?_⟩
        rw [countEv_append, attemptOnce_count_fetch, hcount]
        omega

theorem attemptLoop_success_char (out : Nat → AttemptOutcome) (fuel : Nat) :
    ∀ (i : Nat) (le : String) (fs : FS),
      (attemptLoop out i fuel le fs).result = .success →
      ∃ k cs, k < fuel ∧ (∀ j, j < k → isConn (out (i + j)) = true)
        ∧ out (i + k) = .success cs
        ∧ (attemptLoop out i fuel le fs).fs.temp = some cs.flatten := by
  induction fuel with
  | zero => intro i le fs h; simp [attemptLoop] at h
  | succ f ih =>
    intro i le fs hres
    cases h : out i with
    | success cs =>
      refine ⟨0, cs, Nat.succ_pos f, fun j hj => absurd hj (Nat.not_lt_zero j),
        by simpa using h, ?_⟩
      simp only [attemptLoop, h]
      exact attemptOnce_success_temp cs fs
    | otherError w m =>
      simp only [attemptLoop, h] at hres
      exact absurd hres (by simp)
    | connError w m =>
      simp only [attemptLoop, h] at hres ⊢
      obtain ⟨k, cs, hk, hconn, hout, htemp⟩ :=
        ih (i + 1) m ((attemptOnce (.connError w m) fs).fs) hres
      refine ⟨k + 1, cs, by omega, ?_, ?_, htemp⟩
      · intro j hj
        cases j with
        | zero => rw [Nat.add_zero, h]; rfl
        | succ j' =>
          have := hconn j' (by omega)
          rwa [show i + 1 + j' = i + (j' + 1) by omega] at this
      · rwa [show i + (k + 1) = i + 1 + k by omega]

/-! ### Helper lemmas: `_download_and_tag` -/

theorem download_and_tag_noUrl_eq (out : Nat → AttemptOutcome) (fs : FS) :
    download_and_tag none out fs = ⟨[], fs, .noUrl⟩ := rfl

theorem download_and_tag_done_eq (u : String) (out : Nat → AttemptOutcome)
    (fs : FS) (h : fs.final.isSome = true) :
    download_and_tag (some u) out fs = ⟨[], fs, .alreadyDone⟩ := by
  simp only [download_and_tag, h, if_true]

theorem download_and_tag_exhausted_eq (u : String)
    (out : Nat → AttemptOutcome) (fs : FS) (m : String) (h : fs.final = none)
    (hL : (attemptLoop out 0 max_retries "" fs).result = .exhausted m) :
    download_and_tag (some u) out fs =
      ⟨(attemptLoop out 0 max_retries "" fs).steps,
       (attemptLoop out 0 max_retries "" fs).fs, .exhausted m⟩ := by
  simp only [download_and_tag, h, Option.isSome_none, Bool.false_eq_true,
    if_false, hL]

theorem download_and_tag_fatal_eq (u : String)
    (out : Nat → AttemptOutcome) (fs : FS) (m : String) (h : fs.final = none)
    (hL : (attemptLoop out 0 max_retries "" fs).result = .fatal m) :
    download_and_tag (some u) out fs =
      ⟨(attemptLoop out 0 max_retries "" fs).steps,
       (attemptLoop out 0 max_retries "" fs).fs, .raised m⟩ := by
  simp only [download_and_tag, h, Option.isSome_none, Bool.false_eq_true,
    if_false, hL]

theorem download_and_tag_success_eq (u : String)
    (out : Nat → AttemptOutcome) (fs : FS) (b : List Nat) (h : fs.final = none)
    (hL : (attemptLoop out 0 max_retries "" fs).result = .success)
    (ht : (attemptLoop out 0 max_retries "" fs).fs.temp = some b) :
    download_and_tag (some u) out fs =
      ⟨((attemptLoop out 0 max_retries "" fs).steps
          ++ [(Ev.tagAttempt, (attemptLoop out 0 max_retries "" fs).fs)])
         ++ [(Ev.publishRename,
              { (attemptLoop out 0 max_retries "" fs).fs with
                  temp := none, final := some b })],
       { (attemptLoop out 0 max_retries "" fs).fs with
           temp := none, final := some b },
       .published⟩ := by
  simp only [download_and_tag, h, Option.isSome_none, Bool.false_eq_true,
    if_false, hL, ht, Option.isSome_some, if_true, Option.getD_some]

theorem isRenameEv_eq_false {e : Ev} (h : e ≠ Ev.publishRename) :
    isRenameEv e = false := by
  cases e <;> first | rfl | exact absurd rfl h

theorem attemptLoop_rename_zero (out : Nat → AttemptOutcome) (i : Nat)
    (le : String) (fs : FS) :
    countEv isRenameEv (attemptLoop out i max_retries le fs).steps = 0 :=
  countEv_eq_zero fun s hs =>
    isRenameEv_eq_false (attemptLoop_mem out max_retries i le fs s hs).2.1

/-! ### The claims -/

/-- C1: for every item processed by the transfer routine, the final sanitized
destination path never holds a partially written file: at every point during
the transfer (starting from a final path that does not yet exist) either no
file exists at the final path or it contains the complete payload — the full
body of the successful attempt; bytes are streamed only into the hidden temp
file (every recorded step other than the single publish rename leaves the
final path absent), and the file becomes visible at the final path only
through a single rename performed after the full body has been received and
tagging has been attempted (the step list ends with the tag attempt followed
by the publish rename). -/
theorem C1_atomic_publish (url : Option String) (out : Nat → AttemptOutcome)
    (fs : FS) (h : fs.final = none) :
    (∀ s ∈ (download_and_tag url out fs).steps,
        s.2.final = none ∨
          ((download_and_tag url out fs).result = .published
            ∧ s.1 = Ev.publishRename
            ∧ ∃ k cs, k < max_retries
                ∧ (∀ j, j < k → isConn (out j) = true)
                ∧ out k = .success cs ∧ s.2.final = some cs.flatten))
    ∧ countEv isRenameEv (download_and_tag url out fs).steps ≤ 1
    ∧ ((download_and_tag url out fs).result = .published →
        ∃ pre mid,
          (download_and_tag url out fs).steps
            = pre ++ [(Ev.tagAttempt, mid),
                (Ev.publishRename, (download_and_tag url out fs).fs)]
          ∧ (download_and_tag url out fs).fs.final ≠ none) := by
  cases url with
  | none =>
    rw [download_and_tag_noUrl_eq]
    refine ⟨?_, ?_, ?_⟩
    · intro s hs; simp at hs
    · simp [countEv_nil]
    · intro hp; simp at hp
  | some u =>
    cases hres : (attemptLoop out 0 max_retries "" fs).result with
    | exhausted m =>
      rw [download_and_tag_exhausted_eq u out fs m h hres]
      refine ⟨?_, ?_, ?_⟩
      · intro s hs
        exact Or.inl
          ((attemptLoop_mem out max_retries 0 "" fs s hs).1.trans h)
      · rw [show (⟨(attemptLoop out 0 max_retries "" fs).steps,
            (attemptLoop out 0 max_retries "" fs).fs,
            DLResult.exhausted m⟩ : DLRun).steps
            = (attemptLoop out 0 max_retries "" fs).steps from rfl,
          attemptLoop_rename_zero]
        omega
      · intro hp; simp at hp
    | fatal m =>
      rw [download_and_tag_fatal_eq u out fs m h hres]
      refine ⟨?_, ?_, ?_⟩
      · intro s hs
        exact Or.inl
          ((attemptLoop_mem out max_retries 0 "" fs s hs).1.trans h)
      · rw [show (⟨(attemptLoop out 0 max_retries "" fs).steps,
            (attemptLoop out 0 max_retries "" fs).fs,
            DLResult.raised m⟩ : DLRun).steps
            = (attemptLoop out 0 max_retries "" fs).steps from rfl,
          attemptLoop_rename_zero]
        omega
      · intro hp; simp at hp
    | success =>
      obtain ⟨k, cs, hk, hconn, hout, htemp⟩ :=
        attemptLoop_success_char out max_retries 0 "" fs hres
      rw [download_and_tag_success_eq u out fs cs.flatten h hres htemp]
      refine ⟨?_, ?_, ?_⟩
      · intro s hs
        simp only [List.mem_append, List.mem_singleton] at hs
        rcases hs with (hs | rfl) | rfl
        · exact Or.inl
            ((attemptLoop_mem out max_retries 0 "" fs s hs).1.trans h)
        · exact Or.inl ((attemptLoop_fs_final out max_retries 0 "" fs).trans h)
        · refine Or.inr ⟨rfl, rfl, k, cs, hk, ?_, ?_, rfl⟩
          · intro j hj
            have := hconn j hj
            rwa [Nat.zero_add] at this
          · have := hout
            rwa [Nat.zero_add] at this
      · rw [countEv_append, countEv_append, attemptLoop_rename_zero,
          countEv_cons, countEv_nil, countEv_cons, countEv_nil]
        simp [isRenameEv]
      · intro _
        refine ⟨(attemptLoop out 0 max_retries "" fs).steps,
          (attemptLoop out 0 max_retries "" fs).fs, ?_, ?_⟩
        · rw [List.append_assoc]
          rfl
        · simp

/-- C1 witness: the property evaluated on a concrete successful transfer. -/
theorem C1_witness :
    (∀ s ∈ (download_and_tag (some "u") outSuccess fsEmpty).steps,
        s.2.final = none ∨
          ((download_and_tag (some "u") outSuccess fsEmpty).result
              = .published
            ∧ s.1 = Ev.publishRename
            ∧ ∃ k cs, k < max_retries
                ∧ (∀ j, j < k → isConn (outSuccess j) = true)
                ∧ outSuccess k = .success cs ∧ s.2.final = some cs.flatten))
    ∧ countEv isRenameEv
        (download_and_tag (some "u") outSuccess fsEmpty).steps ≤ 1
    ∧ ((download_and_tag (some "u") outSuccess fsEmpty).result = .published →
        ∃ pre mid,
          (download_and_tag (some "u") outSuccess fsEmpty).steps
            = pre ++ [(Ev.tagAttempt, mid),
                (Ev.publishRename,
                  (download_and_tag (some "u") outSuccess fsEmpty).fs)]
          ∧ (download_and_tag (some "u") outSuccess fsEmpty).fs.final
              ≠ none) :=
  C1_atomic_publish (some "u") outSuccess fsEmpty rfl

/-- C2: for every transfer in which every attempt fails with a
connection-level error, exactly `max_retries = 3` attempts are performed (3
fetches), each failed attempt sleeping the fixed 3-unit backoff and ending
with the partial temp file discarded and the per-item progress counter zero
(every recorded progress-reset step shows temp absent and progress 0, and
there are exactly 3 backoffs and 3 resets), after which the item is a
definitive failure; an attempt failing with any other error class after `k`
connection-level failures aborts the item at once with exactly `k + 1`
fetches. -/
theorem C2_retry_bound (u : String) (out : Nat → AttemptOutcome) (fs : FS)
    (h : fs.final = none) :
    ((∀ j, j < max_retries → isConn (out j) = true) →
      (∃ m, (download_and_tag (some u) out fs).result = .exhausted m)
        ∧ countEv isFetchEv (download_and_tag (some u) out fs).steps
            = max_retries
        ∧ countEv isSleep3Ev (download_and_tag (some u) out fs).steps
            = max_retries
        ∧ countEv isResetEv (download_and_tag (some u) out fs).steps
            = max_retries
        ∧ (download_and_tag (some u) out fs).fs.temp = none
        ∧ (download_and_tag (some u) out fs).fs.prog = 0)
    ∧ (∀ k, k < max_retries →
        (∀ j, j < k → isConn (out j) = true) →
        ∀ w m, out k = .otherError w m →
          (download_and_tag (some u) out fs).result = .raised m
            ∧ countEv isFetchEv (download_and_tag (some u) out fs).steps
                = k + 1)
    ∧ (∀ s ∈ (download_and_tag (some u) out fs).steps,
        s.1 = Ev.resetProg → s.2.temp = none ∧ s.2.prog = 0) := by
  refine ⟨?_, ?_, ?_⟩
  · intro hconn
    have hconn' : ∀ j, j < max_retries → isConn (out (0 + j)) = true := by
      intro j hj
      rw [Nat.zero_add]
      exact hconn j hj
    obtain ⟨⟨m, hres⟩, hcf, hcs, hcr, ht, hp⟩ :=
      attemptLoop_allconn out max_retries 0 "" fs (by decide) hconn'
    rw [download_and_tag_exhausted_eq u out fs m h hres]
    exact ⟨⟨m, rfl⟩, hcf, hcs, hcr, ht, hp⟩
  · intro k hk hconn w m hout
    have hconn' : ∀ j, j < k → isConn (out (0 + j)) = true := by
      intro j hj
      rw [Nat.zero_add]
      exact hconn j hj
    have hout' : out (0 + k) = .otherError w m := by rwa [Nat.zero_add]
    obtain ⟨hres, hcount⟩ :=
      attemptLoop_other out max_retries k 0 "" fs hk hconn' w m hout'
    rw [download_and_tag_fatal_eq u out fs m h hres]
    exact ⟨rfl, hcount⟩
  · intro s hs hr
    cases hres : (attemptLoop out 0 max_retries "" fs).result with
    | exhausted m =>
      rw [download_and_tag_exhausted_eq u out fs m h hres] at hs
      exact attemptLoop_reset_mem out max_retries 0 "" fs s hs hr
    | fatal m =>
      rw [download_and_tag_fatal_eq u out fs m h hres] at hs
      exact attemptLoop_reset_mem out max_retries 0 "" fs s hs hr
    | success =>
      obtain ⟨k, cs, hk, hconn, hout, htemp⟩ :=
        attemptLoop_success_char out max_retries 0 "" fs hres
      rw [download_and_tag_success_eq u out fs cs.flatten h hres htemp] at hs
      simp only [List.mem_append, List.mem_singleton] at hs
      rcases hs with (hs | rfl) | rfl
      · exact attemptLoop_reset_mem out max_retries 0 "" fs s hs hr
      · simp at hr
      · simp at hr

/-- C2 witness: the retry bound evaluated on a network that times out on
every attempt. -/
theorem C2_witness :
    ((∀ j, j < max_retries → isConn (outConn j) = true) →
      (∃ m, (download_and_tag (some "u") outConn fsEmpty).result
          = .exhausted m)
        ∧ countEv isFetchEv (download_and_tag (some "u") outConn fsEmpty).steps
            = max_retries
        ∧ countEv isSleep3Ev
            (download_and_tag (some "u") outConn fsEmpty).steps = max_retries
        ∧ countEv isResetEv
            (download_and_tag (some "u") outConn fsEmpty).steps = max_retries
        ∧ (download_and_tag (some "u") outConn fsEmpty).fs.temp = none
        ∧ (download_and_tag (some "u") outConn fsEmpty).fs.prog = 0)
    ∧ (∀ k, k < max_retries →
        (∀ j, j < k → isConn (outConn j) = true) →
        ∀ w m, outConn k = .otherError w m →
          (download_and_tag (some "u") outConn fsEmpty).result = .raised m
            ∧ countEv isFetchEv
                (download_and_tag (some "u") outConn fsEmpty).steps = k + 1)
    ∧ (∀ s ∈ (download_and_tag (some "u") outConn fsEmpty).steps,
        s.1 = Ev.resetProg → s.2.temp = none ∧ s.2.prog = 0) :=
  C2_retry_bound "u" outConn fsEmpty rfl

/-- C4: an item whose final sanitized path already exists as a file at
transfer time returns as already satisfied with no recorded step at all — in
particular no network fetch — and a batch whose items all have their final
file present performs zero payload fetches in total. -/
theorem C4_idempotent_skip (u : String) (out : Nat → AttemptOutcome)
    (fs : FS) (h : fs.final.isSome = true) :
    download_and_tag (some u) out fs = ⟨[], fs, .alreadyDone⟩
    ∧ countEv isFetchEv (download_and_tag (some u) out fs).steps = 0
    ∧ ∀ (items : List (String × (Nat → AttemptOutcome) × FS)),
        (∀ it ∈ items, it.2.2.final.isSome = true) →
        (items.map (fun it =>
            countEv isFetchEv
              (download_and_tag (some it.1) it.2.1 it.2.2).steps)).sum
          = 0 := by
  refine ⟨download_and_tag_done_eq u out fs h, ?_, ?_⟩
  · rw [download_and_tag_done_eq u out fs h]
    rfl
  · intro items
    induction items with
    | nil => intro _; rfl
    | cons it rest ih =>
      intro hall
      rw [List.map_cons, List.sum_cons,
        download_and_tag_done_eq it.1 it.2.1 it.2.2
          (hall it (List.mem_cons_self it rest)),
        show (⟨[], it.2.2, DLResult.alreadyDone⟩ : DLRun).steps = [] from rfl,
        countEv_nil, ih (fun x hx => hall x (List.mem_cons_of_mem it hx))]

/-- C4 witness: the short-circuit evaluated on a destination whose final
file exists. -/
theorem C4_witness :
    download_and_tag (some "u") outSuccess fsDone = ⟨[], fsDone, .alreadyDone⟩
    ∧ countEv isFetchEv (download_and_tag (some "u") outSuccess fsDone).steps
        = 0
    ∧ ∀ (items : List (String × (Nat → AttemptOutcome) × FS)),
        (∀ it ∈ items, it.2.2.final.isSome = true) →
        (items.map (fun it =>
            countEv isFetchEv
              (download_and_tag (some it.1) it.2.1 it.2.2).steps)).sum
          = 0 :=
  C4_idempotent_skip "u" outSuccess fsDone rfl

/-- C10: a stream descriptor with no "url" field makes `_download_and_tag`
return immediately: no step is recorded (no temp file, no fetch), no error
surfaces at the task boundary, and the task completes as a success — the
batch state gains no failure entry and only the overall counter advances. -/
theorem C10_missing_url (out : Nat → AttemptOutcome) (fs : FS)
    (label : String) (st : BatchState) :
    download_and_tag none out fs = ⟨[], fs, .noUrl⟩
    ∧ taskWork .noUrl = .ok ()
    ∧ process_single_track label (taskWork .noUrl) st
        = { st with overall := st.overall + 1 } :=
  ⟨rfl, rfl, rfl⟩

/-- C3: an item whose resolved stream descriptor is flagged as a
sample/preview is skipped: `_process_real_track` records no step (nothing
written anywhere, no fetch, hence no retry attempt consumed), leaves the file
system unchanged and ends as a skip, not an error; the album-batch per-track
loop likewise downloads nothing and appends no failure entry. -/
theorem C3_sample_skip (p : ParseDict) (out : Nat → AttemptOutcome) (fs : FS)
    (label : String) (failed : List String) (h : p.hasSampleKey = true) :
    process_real_track (.ok p) out fs = ⟨[], fs, .skippedSample⟩
    ∧ countEv isFetchEv (process_real_track (.ok p) out fs).steps = 0
    ∧ album_track_step label (.ok p) out fs failed = (failed, [], fs) := by
  refine ⟨?_, ?_, ?_⟩
  · simp [process_real_track, h]
  · simp [process_real_track, h]
    rfl
  · simp [album_track_step, h]

/-- C3 witness: the skip evaluated on a concrete sample-flagged descriptor. -/
theorem C3_witness :
    process_real_track (.ok sampleParse) outSuccess fsEmpty
        = ⟨[], fsEmpty, .skippedSample⟩
    ∧ countEv isFetchEv
        (process_real_track (.ok sampleParse) outSuccess fsEmpty).steps = 0
    ∧ album_track_step "lbl" (.ok sampleParse) outSuccess fsEmpty []
        = ([], [], fsEmpty) :=
  C3_sample_skip sampleParse outSuccess fsEmpty "lbl" [] rfl

theorem run_foldl_aux (tasks : List (String × Except String Unit)) :
    ∀ st : BatchState,
      (tasks.foldl (fun st t => process_single_track t.1 t.2 st) st).failed
          = st.failed ++ tasks.filterMap failure_entry
        ∧ (tasks.foldl (fun st t => process_single_track t.1 t.2 st)
            st).overall = st.overall + tasks.length := by
  induction tasks with
  | nil => intro st; simp
  | cons t rest ih =>
    intro st
    rw [List.foldl_cons]
    obtain ⟨h1, h2⟩ := ih (process_single_track t.1 t.2 st)
    constructor
    · rw [h1]
      cases ht : t.2 with
      | ok v =>
        simp [process_single_track, failure_entry, ht]
      | error e =>
        simp [process_single_track, failure_entry, ht]
    · rw [h2]
      cases ht : t.2 with
      | ok v =>
        simp [process_single_track, ht]
        omega
      | error e =>
        simp [process_single_track, ht]
        omega

/-- C9: an error raised by any one item's task is caught at the task
boundary and recorded as "label - error" in the shared failure report, and
never aborts the batch — every task advances the overall counter, so after
all tasks join the counter equals the item count and the report lists
exactly the failed items in order; the batch is reported successful if and
only if the failure report is empty. -/
theorem C9_batch_report (tasks : List (String × Except String Unit)) :
    (run_multithreaded tasks).failed = tasks.filterMap failure_entry
    ∧ (run_multithreaded tasks).overall = tasks.length
    ∧ (batch_reports_success tasks = true ↔
        (run_multithreaded tasks).failed = []) := by
  obtain ⟨h1, h2⟩ := run_foldl_aux tasks ⟨[], 0⟩
  exact ⟨by simpa using h1, by simpa using h2,
    by rw [batch_reports_success, List.isEmpty_iff]⟩

theorem foldl_keep_ne_nil (l : List (List Char)) :
    ∀ acc : List (List Char), acc ≠ [] →
      l.foldl (fun acc a => if a ∈ acc then acc else acc ++ [a]) acc
        ≠ [] := by
  induction l with
  | nil => intro acc hacc; exact hacc
  | cons x xs ih =>
    intro acc hacc
    rw [List.foldl_cons]
    apply ih
    split
    · exact hacc
    · simp

theorem firstOccurrences_ne_nil (x : List Char) (xs : List (List Char)) :
    firstOccurrences (x :: xs) ≠ [] := by
  unfold firstOccurrences
  rw [List.foldl_cons]
  apply foldl_keep_ne_nil
  simp

theorem mostCommon_foldl_isSome (cnt : List Char → Nat) :
    ∀ (L : List (List Char)) (b : Option (List Char)),
      (b.isSome = true ∨ L ≠ []) →
      (L.foldl (fun best a =>
        match best with
        | none => some a
        | some c => if cnt a > cnt c then some a else some c) b).isSome
        = true := by
  intro L
  induction L with
  | nil =>
    intro b h
    rcases h with h | h
    · exact h
    · exact absurd rfl h
  | cons a L ih =>
    intro b _
    rw [List.foldl_cons]
    apply ih
    left
    cases b with
    | none => rfl
    | some c =>
      show (if cnt a > cnt c then some a else some c).isSome = true
      split <;> rfl

theorem mostCommonArtist_isSome (l : List (List Char)) (h : l ≠ []) :
    (mostCommonArtist l).isSome = true := by
  unfold mostCommonArtist
  apply mostCommon_foldl_isSome
  right
  cases l with
  | nil => exact absurd rfl h
  | cons x xs => exact firstOccurrences_ne_nil x xs

/-- C5: the discography filter activates if and only if the modal (most
frequent, first-seen among ties — a Python `Counter`) artist's count
strictly exceeds 40% of the input entries (`count / len > 0.4` read
exactly, i.e. `5 * count > 2 * len`); when active it keeps exactly the
entries whose lowered artist name contains the lowered modal name, or is
contained in it, or contains "various", dropping all others; when the share
does not exceed the threshold the input is returned unchanged; an empty
input yields an empty output, and the filter is a total function (it never
throws) whose modal artist exists for every non-empty input. -/
theorem C5_discography_filter (l : List AlbumEntry) :
    (l = [] → download_batch_filter l = [])
    ∧ (l ≠ [] → (mostCommonArtist (l.map (·.artistName))).isSome = true)
    ∧ (∀ m, mostCommonArtist (l.map (·.artistName)) = some m →
        ((5 * (l.map (·.artistName)).count m > 2 * l.length →
            download_batch_filter l = l.filter (keepEntry m))
          ∧ (¬ 5 * (l.map (·.artistName)).count m > 2 * l.length →
            download_batch_filter l = l))) := by
  refine ⟨?_, ?_, ?_⟩
  · rintro rfl; rfl
  · intro h
    apply mostCommonArtist_isSome
    cases l with
    | nil => exact absurd rfl h
    | cons x xs => simp
  · intro m hm
    constructor
    · intro hgt
      unfold download_batch_filter
      simp only [hm]
      rw [if_pos hgt]
    · intro hle
      unfold download_batch_filter
      simp only [hm]
      rw [if_neg hle]

/-- C6 counterexample: at requested tier 7, a resolved descriptor carrying
bit depth 16 but no sampling-rate field makes the final tuple construction
fail, and the degraded "Unknown" result carries quality-met = false — not
true, as the claim states for every resolution error. -/
theorem C6_counterexample :
    get_format 7 (.ok "t") (fun _ => .ok ⟨some 16, none⟩)
        = .ok ("Unknown", false, none, none)
    ∧ (("Unknown", false, (none : Option Int), (none : Option Int))
        ≠ ("Unknown", true, (none : Option Int), (none : Option Int))) := by
  refine ⟨rfl, ?_⟩
  simp

/-- C6 amended: for a requested tier other than 5, an error in the
resolution call, or a missing bit-depth or sampling-rate field of the
resolved descriptor, degrades to format "Unknown" with absent bit depth and
sampling rate rather than raising; quality-met in the degraded result is
true except when the tier is above 6 and the descriptor's bit depth already
read 16 before the failing sampling-rate read, in which case it is false
(the `quality_met` flag current at the raise is returned). -/
theorem C6_amended_degrade (q : Int) (tid : String)
    (resolve : String → Except String TrackUrlInfo) (hq : q ≠ 5) :
    (∀ e, resolve tid = .error e →
        get_format q (.ok tid) resolve = .ok ("Unknown", true, none, none))
    ∧ (∀ info, resolve tid = .ok info → info.bit_depth = none →
        get_format q (.ok tid) resolve = .ok ("Unknown", true, none, none))
    ∧ (∀ info bd, resolve tid = .ok info → info.bit_depth = some bd →
        info.sampling_rate = none →
        get_format q (.ok tid) resolve
          = .ok ("Unknown",
              !(decide (6 < q) && decide (info.bit_depth = some 16)),
              none, none)) := by
  refine ⟨?_, ?_, ?_⟩
  · intro e he
    unfold get_format
    rw [if_neg hq]
    simp only [he]
  · intro info he hbd
    unfold get_format
    rw [if_neg hq]
    simp only [he, hbd]
    simp
  · intro info bd he hbd hsr
    unfold get_format
    rw [if_neg hq]
    simp only [he, hbd, hsr]

/-- C6 amended witness: the degrade evaluated at tier 7 with a failing
resolution call. -/
theorem C6_witness :
    (∀ e, resolveFail "t" = .error e →
        get_format 7 (.ok "t") resolveFail
          = .ok ("Unknown", true, none, none))
    ∧ (∀ info, resolveFail "t" = .ok info → info.bit_depth = none →
        get_format 7 (.ok "t") resolveFail
          = .ok ("Unknown", true, none, none))
    ∧ (∀ info bd, resolveFail "t" = .ok info → info.bit_depth = some bd →
        info.sampling_rate = none →
        get_format 7 (.ok "t") resolveFail
          = .ok ("Unknown",
              !(decide ((6 : Int) < 7) && decide (info.bit_depth = some 16)),
              none, none)) :=
  C6_amended_degrade 7 "t" resolveFail (by decide)

/-- C7 counterexample: at requested tier 6 a failing resolution call yields
format "Unknown", not "FLAC", so a tier above 5 does not always return
"FLAC". -/
theorem C7_counterexample :
    get_format 6 (.ok "t") (fun _ => .error "connection failed")
        = .ok ("Unknown", true, none, none)
    ∧ ("Unknown" : String) ≠ "FLAC" := by
  refine ⟨rfl, ?_⟩
  decide

/-- C7 amended: tier 5 always resolves to ("MP3", quality-met, no depth, no
rate) with quality-met true, before any resolution; a tier above 5 resolves
to "FLAC" whenever the resolution call succeeds and the descriptor carries
both bit depth and sampling rate (otherwise the "Unknown" degrade of the
error path applies); and whenever the tier is above 6 and the delivered bit
depth is 16, the returned quality-met is false. -/
theorem C7_amended_tiers :
    (∀ (lookup : Except String String)
        (resolve : String → Except String TrackUrlInfo),
        get_format 5 lookup resolve = .ok ("MP3", true, none, none))
    ∧ (∀ (q : Int) (tid : String)
        (resolve : String → Except String TrackUrlInfo) (info : TrackUrlInfo)
        (bd sr : Int), 5 < q →
        resolve tid = .ok info → info.bit_depth = some bd →
        info.sampling_rate = some sr →
        get_format q (.ok tid) resolve
          = .ok ("FLAC",
              !(decide (6 < q) && decide (info.bit_depth = some 16)),
              some bd, some sr))
    ∧ (∀ (q : Int) (tid : String)
        (resolve : String → Except String TrackUrlInfo)
        (info : TrackUrlInfo),
        6 < q → resolve tid = .ok info → info.bit_depth = some 16 →
        ∃ fmt dr, get_format q (.ok tid) resolve = .ok (fmt, false, dr)) := by
  refine ⟨?_, ?_, ?_⟩
  · intro lookup resolve
    rfl
  · intro q tid resolve info bd sr hq he hbd hsr
    unfold get_format
    rw [if_neg (by omega : ¬q = 5)]
    simp only [he, hbd, hsr]
  · intro q tid resolve info hq he hbd
    cases hsr : info.sampling_rate with
    | some sr =>
      refine ⟨"FLAC", (some 16, some sr), ?_⟩
      unfold get_format
      rw [if_neg (by omega : ¬q = 5)]
      simp only [he, hbd, hsr]
      simp [hq]
    | none =>
      refine ⟨"Unknown", (none, none), ?_⟩
      unfold get_format
      rw [if_neg (by omega : ¬q = 5)]
      simp only [he, hbd, hsr]
      simp [hq]

/-- C8: the track filename component is sanitized (no invalid filesystem
character survives) and the fully joined path is truncated to at most 240
units before the extension is appended; a joined path exceeding 240 units
before the extension yields a final path of exactly 240 units plus the
extension. -/
theorem C8_path_truncation (rootDir fmtName ext : List Char) :
    (∀ c ∈ sanitize_filename fmtName, c ∉ invalidFilenameChars)
    ∧ finalFilePath rootDir fmtName ext
        = (pathJoin rootDir (sanitize_filename fmtName)).take 240 ++ ext
    ∧ (finalFilePath rootDir fmtName ext).length ≤ 240 + ext.length
    ∧ ((pathJoin rootDir (sanitize_filename fmtName)).length > 240 →
        (finalFilePath rootDir fmtName ext).length = 240 + ext.length) := by
  refine ⟨?_, rfl, ?_, ?_⟩
  · intro c hc
    rw [sanitize_filename, List.mem_filter] at hc
    exact of_decide_eq_true hc.2
  · rw [finalFilePath, List.length_append, List.length_take]
    omega
  · intro hlong
    rw [finalFilePath, List.length_append, List.length_take]
    omega

end QD
